import Mathlib

/-!
Verification of the GraSPipe spectral-embedding module against its
specification.  The sources under `src/embed` are modelled shallowly:

* matrices are `List (List ℚ)` (rational entries standing for the
  floating-point reals of numpy, with overflow-free exact arithmetic);
* the SVD abstraction layer (`selectSVD`), the Dimension Selector
  (`select_dimension`) and the scalar square root live in modules that are
  not part of the sources, so the development is parameterised over them
  through the `Solvers` structure;
* the graph-ingestion and symmetry utilities (`import_graph`,
  `is_almost_symmetric`, `is_symmetric`) are likewise external; they are
  modelled from the spec and marked as such;
* a Python object whose attributes appear only after `fit` is modelled by
  `Option`-valued fields (`none` = attribute absent); raising an exception
  is modelled by `Except`.
-/

/-- Dense real matrix, stored row-major.  Entries are rationals. -/
abbrev Mat := List (List ℚ)

/-- Dot product of two rows (numpy truncates nothing here because all uses
are on equal-length vectors; `zipWith` truncates to the shorter one). -/
def dot (xs ys : List ℚ) : ℚ :=
  (List.zipWith (fun a b => a * b) xs ys).sum

/-- Entry `A[i][j]`, with 0 outside the stored rectangle. -/
def entry (A : Mat) (i j : ℕ) : ℚ :=
  (A.getD i []).getD j 0

/-- Transpose, `numpy`'s `.T` on a rectangular array: the result has one row
per column of the first row of `A`. -/
def transposeM (A : Mat) : Mat :=
  (List.range (A.headD []).length).map fun j => A.map fun row => row.getD j 0

/-- Matrix product `A @ B`. -/
def matMul (A B : Mat) : Mat :=
  A.map fun row => (transposeM B).map fun col => dot row col

/-- Horizontal concatenation of two matrices with the same number of rows
(`numpy` `hstack` on a pair). -/
def hstack2 (A B : Mat) : Mat :=
  List.zipWith (fun r s => r ++ s) A B

/-- `np.hstack` over a list of equal-height matrices. -/
def hstack : List Mat → Mat
  | [] => []
  | [M] => M
  | M :: Ms => hstack2 M (hstack Ms)

/-- Column truncation `M[:, :d]`. -/
def truncCols (d : ℕ) (A : Mat) : Mat :=
  A.map (List.take d)

/-- `np.diag` of a vector. -/
def diagM (l : List ℚ) : Mat :=
  (List.range l.length).map fun i =>
    (List.range l.length).map fun j => if i = j then l.getD i 0 else 0

/-- `np.identity n`. -/
def idM (n : ℕ) : Mat :=
  (List.range n).map fun i => (List.range n).map fun j => if i = j then 1 else 0

/-- `np.ones (n, n)`. -/
def onesM (n : ℕ) : Mat :=
  (List.range n).map fun _ => (List.range n).map fun _ => (1 : ℚ)

/-- Entrywise difference of two same-shaped matrices. -/
def matSub (A B : Mat) : Mat :=
  List.zipWith (List.zipWith (fun a b => a - b)) A B

/-- Scalar multiple `c * A`. -/
def matSmul (c : ℚ) (A : Mat) : Mat :=
  A.map (List.map (fun x => c * x))

/-- Entrywise square, `A ** 2` in numpy. -/
def matSq (A : Mat) : Mat :=
  A.map (List.map fun x => x * x)

/-- A stored matrix is square when each row is as long as the row list. -/
def isSquare (A : Mat) : Bool :=
  A.all fun row => row.length = A.length

/-- Errors raised by the embedders.  `invalidInput` stands for the
`ValueError`/`TypeError` raised by the input checks, `notFitted` for the
failure of an attribute lookup on a model `fit` has not populated, and
`directednessMismatch` for the `TypeError` raised by `transform` when the
new collection's symmetry status disagrees with the fitted model's. -/
inductive EmbedError
  | invalidInput : String → EmbedError
  | notFitted : EmbedError
  | directednessMismatch : EmbedError
deriving DecidableEq, Repr

/-- Modelled from the spec: the tolerance of the near-symmetry test of the
external utilities module; the spec only fixes that it is a small positive
constant shared by every use. -/
def symTol : ℚ := 1 / 1000000

/-- Modelled from the spec: `is_almost_symmetric` from the external
utilities module (not part of the sources).  Near-symmetric means the
maximum absolute entrywise difference between the matrix and its transpose
is below a small fixed tolerance. -/
def is_almost_symmetric (A : Mat) : Bool :=
  (List.range A.length).all fun i => (List.range A.length).all fun j =>
    |entry A i j - entry A j i| < symTol

/-- Modelled from the spec: `is_symmetric` from the external utilities
module; exact equality of the matrix with its transpose. -/
def is_symmetric (A : Mat) : Bool :=
  decide (A = transposeM A)

/-- Modelled from the spec: `import_graph` from the external utilities
module, the graph-format ingestion collaborator.  On an adjacency-matrix
input it returns the matrix itself, rejecting anything that is not a
square matrix; it sees a single graph at a time, so it cannot compare
shapes across a collection. -/
def importGraph (A : Mat) : Except EmbedError Mat :=
  if isSquare A then .ok A
  else .error (.invalidInput "graph must be a square adjacency matrix")

/-- The list comprehension `[import_graph(g) for g in graphs]` from
`BaseEmbedMulti._check_input_graphs`. -/
def importAll : List Mat → Except EmbedError (List Mat)
  | [] => .ok []
  | g :: gs => do
      let a ← importGraph g
      let rest ← importAll gs
      .ok (a :: rest)

/-- The external SVD layer.  `svd A nc nElbows algorithm nIter` stands for
`selectSVD(A, n_components=nc, n_elbows=nElbows, algorithm=algorithm,
n_iter=nIter)` and returns `(U, D, Vh)` with `Vh` the transposed right
factor, exactly the calling convention the sources use (`V.T` recovers the
column form).  `selectDim D k` stands for the elbow list returned by
`select_dimension(D, n_elbows=k)`, and `sqrtQ` for numpy's scalar square
root.  None of the three is part of the sources, so every theorem is
quantified over this structure. -/
structure Solvers where
  svd : Mat → Option ℕ → ℕ → String → ℕ → Mat × List ℚ × Mat
  selectDim : List ℚ → ℕ → List ℕ
  sqrtQ : ℚ → ℚ

/-- The `MultipleASE` estimator (with the `BaseEmbedMulti` state it
inherits).  Constructor arguments come first; the trailing `Option` fields
are the attributes `fit` populates, absent (`none`) on a fresh model. -/
structure MultipleASE where
  n_components : Option ℕ := none
  n_elbows : ℕ := 2
  algorithm : String := "randomized"
  n_iter : ℕ := 5
  scaled : Bool := false
  n_graphs_ : Option ℕ := none
  n_vertices_ : Option ℕ := none
  undirected : Option Bool := none
  latent_left_ : Option Mat := none
  latent_right_ : Option (Option Mat) := none
  scores_ : Option (List Mat) := none
deriving DecidableEq, Repr

/-- Input accepted by the multi-graph estimators: a Python list of
matrices, or a 3-dimensional array (whose slices are by construction
uniformly shaped). -/
inductive GraphsIn
  | glist : List Mat → GraphsIn
  | tensor : List Mat → GraphsIn
deriving DecidableEq, Repr

/-- `BaseEmbedMulti._check_input_graphs`.  A list input is rejected when it
has fewer than two elements, then each element goes through
`import_graph`; a tensor input is rejected when it has fewer than two
slices.  On success `n_graphs_` and `n_vertices_` are stored and the
collection returned.  Note that the list branch performs no cross-graph
shape comparison. -/
def MultipleASE.checkInputGraphs (m : MultipleASE) (graphs : GraphsIn) :
    Except EmbedError (MultipleASE × List Mat) :=
  match graphs with
  | .glist gs =>
      if gs.length ≤ 1 then
        .error (.invalidInput "Input must have at least 2 graphs.")
      else do
        let out ← importAll gs
        .ok ({ m with n_graphs_ := some out.length,
                      n_vertices_ := some (out.headD []).length }, out)
  | .tensor gs =>
      if gs.length ≤ 1 then
        .error (.invalidInput "Input tensor must have at least 2 elements.")
      else
        .ok ({ m with n_graphs_ := some gs.length,
                      n_vertices_ := some (gs.headD []).length }, gs)

/-- First stage of `MultipleASE._reduce_dim`: embed every graph by
`selectSVD` at rank `int(np.ceil(np.log2(np.min(self.n_vertices_))))`
(`np.min` of the scalar is the scalar itself; the ceiling of the base-2
logarithm of `n` is `Nat.clog 2 n`).  `select_dimension`'s `n_elbows`
argument is not passed at this call site, so its default 2 applies inside
`selectSVD`. -/
def MultipleASE.firstStage (S : Solvers) (m : MultipleASE) (graphs : List Mat) :
    List (Mat × List ℚ × Mat) :=
  let nc := Nat.clog 2 (m.n_vertices_.getD 0)
  graphs.map fun graph => S.svd graph (some nc) 2 m.algorithm m.n_iter

/-- The `best_dimension` computation of `MultipleASE._reduce_dim`: when
`n_components` is absent, take for every graph the last elbow returned by
`select_dimension(D, n_elbows)` and then `int(np.ceil(np.max(...)))` of the
collected values — the elbow values are integers, so the ceiling is the
identity and the maximum is the `Nat` maximum; when `n_components` is
present it is used directly. -/
def MultipleASE.bestDim (S : Solvers) (m : MultipleASE) (Ds : List (List ℚ)) : ℕ :=
  match m.n_components with
  | none => ((Ds.map fun D => (S.selectDim D m.n_elbows).getLastD 0).foldr max 0)
  | some d => d

/-- The left stacking step of `MultipleASE._reduce_dim`: truncate each `U`
to `best_dimension` columns and `np.hstack`; when `scaled`, first multiply
by `np.diag(np.sqrt(D[:best_dimension]))`. -/
def MultipleASE.stackedLeft (S : Solvers) (m : MultipleASE) (best : ℕ)
    (Us : List Mat) (Ds : List (List ℚ)) : Mat :=
  if !m.scaled then
    hstack (Us.map fun U => truncCols best U)
  else
    hstack ((Us.zip Ds).map fun UD =>
      matMul (truncCols best UD.1) (diagM ((UD.2.take best).map S.sqrtQ)))

/-- The right stacking step of `MultipleASE._reduce_dim`, built from the
transposed `V` factors the same way. -/
def MultipleASE.stackedRight (S : Solvers) (m : MultipleASE) (best : ℕ)
    (Vs : List Mat) (Ds : List (List ℚ)) : Mat :=
  if !m.scaled then
    hstack (Vs.map fun V => truncCols best (transposeM V))
  else
    hstack ((Vs.zip Ds).map fun VD =>
      matMul (truncCols best (transposeM VD.1)) (diagM ((VD.2.take best).map S.sqrtQ)))

/-- `MultipleASE._reduce_dim`: per-graph first-stage SVDs, the shared
`best_dimension`, the two stacked matrices, and one second-stage SVD on
each stack; returns `(Uhat, Vhat)`. -/
def MultipleASE.reduceDim (S : Solvers) (m : MultipleASE) (graphs : List Mat) :
    Mat × Mat :=
  let embeddings := m.firstStage S graphs
  let Us := embeddings.map (·.1)
  let Ds := embeddings.map (·.2.1)
  let Vs := embeddings.map (·.2.2)
  let best := m.bestDim S Ds
  let UsStack := m.stackedLeft S best Us Ds
  let VsStack := m.stackedRight S best Vs Ds
  let Uhat := (S.svd UsStack m.n_components m.n_elbows m.algorithm m.n_iter).1
  let Vhat := (S.svd VsStack m.n_components m.n_elbows m.algorithm m.n_iter).1
  (Uhat, Vhat)

/-- `MultipleASE.fit`: check the input, store the `undirected` flag (true
iff every graph is near-symmetric), embed, and store `latent_left_`,
`latent_right_` and the batched score products
`Uhat.T @ graphs @ Vhat` (with `Uhat` on both sides when undirected). -/
def MultipleASE.fit (S : Solvers) (m : MultipleASE) (graphs : GraphsIn) :
    Except EmbedError MultipleASE := do
  let mg ← m.checkInputGraphs graphs
  let m₁ := mg.1
  let gs := mg.2
  let und := gs.all is_almost_symmetric
  let m₂ := { m₁ with undirected := some und }
  let UV := m₂.reduceDim S gs
  if !und then
    .ok { m₂ with latent_left_ := some UV.1,
                  latent_right_ := some (some UV.2),
                  scores_ := some (gs.map fun g =>
                    matMul (matMul (transposeM UV.1) g) UV.2) }
  else
    .ok { m₂ with latent_left_ := some UV.1,
                  latent_right_ := some none,
                  scores_ := some (gs.map fun g =>
                    matMul (matMul (transposeM UV.1) g) UV.1) }

/-- `BaseEmbed._fit_transform` as inherited by `MultipleASE` (and
re-exported unchanged by `MultipleASE.fit_transform`): run `fit`, then
return the `scores_` attribute — not the latent positions, whose return is
commented out in the source. -/
def MultipleASE.fitTransform (S : Solvers) (m : MultipleASE) (graphs : GraphsIn) :
    Except EmbedError (MultipleASE × List Mat) := do
  let m' ← m.fit S graphs
  match m'.scores_ with
  | some s => .ok (m', s)
  | none => .error .notFitted

/-- `MultipleASE.transform`: check the input, compare the new collection's
symmetry status against the stored `undirected` attribute (an attribute
lookup that fails on an unfitted model), look up `latent_left_`, compute a
projection of the new graphs onto the fitted basis into a local `scores`
variable that is never used again, and finally return
`self._fit_transform(graphs)` — a full re-fit on the checked input. -/
def MultipleASE.transform (S : Solvers) (m : MultipleASE) (graphs : GraphsIn) :
    Except EmbedError (MultipleASE × List Mat) := do
  let mg ← m.checkInputGraphs graphs
  let m₁ := mg.1
  let gs := mg.2
  let und := gs.all is_almost_symmetric
  match m₁.undirected with
  | none => .error .notFitted
  | some u =>
    if u ≠ und then .error .directednessMismatch
    else
      match m₁.latent_left_ with
      | none => .error .notFitted
      | some L =>
        let R := (m₁.latent_right_.getD none).getD []
        let _scores : List Mat :=
          if !und then gs.map fun g => matMul (matMul (transposeM L) g) R
          else gs.map fun g => matMul (matMul (transposeM L) g) L
        m₁.fitTransform S (.glist gs)

/-- The single-graph `BaseEmbed` estimator state. -/
structure BaseEmbedModel where
  n_components : Option ℕ := none
  n_elbows : ℕ := 2
  algorithm : String := "randomized"
  n_iter : ℕ := 5
  n_components_ : Option ℕ := none
  singular_values_ : Option (List ℚ) := none
  latent_left_ : Option Mat := none
  latent_right_ : Option (Option Mat) := none
deriving DecidableEq, Repr

/-- `BaseEmbed._reduce_dim`: one `selectSVD`, then
`latent_left_ = U @ np.diag(np.sqrt(D))`; `latent_right_` is
`V.T @ np.diag(np.sqrt(D))` when the input is not near-symmetric and
`None` otherwise. -/
def BaseEmbedModel.reduceDim (S : Solvers) (m : BaseEmbedModel) (A : Mat) :
    BaseEmbedModel :=
  let UDV := S.svd A m.n_components m.n_elbows m.algorithm m.n_iter
  { m with n_components_ := some UDV.2.1.length,
           singular_values_ := some UDV.2.1,
           latent_left_ := some (matMul UDV.1 (diagM (UDV.2.1.map S.sqrtQ))),
           latent_right_ :=
             if !(is_almost_symmetric A) then
               some (some (matMul (transposeM UDV.2.2) (diagM (UDV.2.1.map S.sqrtQ))))
             else some none }

/-- The `ClassicalMDS` estimator state. -/
structure ClassicalMDS where
  n_components : Option ℕ := none
  dissimilarity : String := "euclidean"
  n_components_ : Option ℕ := none
  components_ : Option Mat := none
  singular_values_ : Option (List ℚ) := none
  dissimilarity_matrix_ : Option Mat := none
deriving DecidableEq, Repr

/-- `_get_centering_matrix`: `np.identity(n) - (1/n) * np.ones((n, n))`. -/
def getCenteringMatrix (n : ℕ) : Mat :=
  matSub (idM n) (matSmul (1 / (n : ℚ)) (onesM n))

/-- `ClassicalMDS._compute_euclidean_distances` on a 2-dimensional input:
entry `(i, j)` is the Euclidean norm of `X[j] - X[i]`, i.e. the square
root (the abstract `sq`) of the sum of squared coordinate differences.
The 3-dimensional branch (Frobenius norms over matrix-valued samples) is
outside this matrix model. -/
def computeEuclideanDistances (sq : ℚ → ℚ) (X : Mat) : Mat :=
  X.map fun xi => X.map fun xj =>
    sq ((List.zipWith (fun a b => (a - b) * (a - b)) xj xi).sum)

/-- The `n_components <= n_samples` guard of `ClassicalMDS.fit` (skipped
when `n_components` is `None`). -/
def ncOK (nc : Option ℕ) (nsamples : ℕ) : Bool :=
  match nc with
  | none => true
  | some c => c ≤ nsamples

/-- `ClassicalMDS.fit`: bound check on `n_components`; for precomputed
dissimilarity the input must be symmetric, otherwise pairwise distances
are computed; then `B = J @ (D ** 2) @ J * -0.5` with the centering matrix
`J`, one `selectSVD` on `B` (algorithm `full` exactly when
`n_components == 1`, with `selectSVD`'s defaults `n_elbows=2`,
`n_iter=5`), and the fitted attributes are stored, `singular_values_`
being `D ** 0.5`. -/
def ClassicalMDS.fit (S : Solvers) (m : ClassicalMDS) (X : Mat) :
    Except EmbedError ClassicalMDS :=
  if !(ncOK m.n_components X.length) then
    .error (.invalidInput "n_components must be <= n_samples.")
  else do
    let dmat ←
      if m.dissimilarity = "precomputed" then
        if is_symmetric X then Except.ok X
        else Except.error (EmbedError.invalidInput
          "X must be a symmetric array if precomputed dissimilarity matrix.")
      else Except.ok (computeEuclideanDistances S.sqrtQ X)
    let J := getCenteringMatrix dmat.length
    let B := matSmul (-(1 : ℚ) / 2) (matMul (matMul J (matSq dmat)) J)
    let algorithm := if m.n_components = some 1 then "full" else "randomized"
    let UDV := S.svd B m.n_components 2 algorithm 5
    .ok { m with n_components_ := some UDV.2.1.length,
                 components_ := some UDV.1,
                 singular_values_ := some (UDV.2.1.map S.sqrtQ),
                 dissimilarity_matrix_ := some dmat }

/-- `ClassicalMDS.fit_transform`: fit, then return
`components_ @ np.diag(singular_values_)`. -/
def ClassicalMDS.fitTransform (S : Solvers) (m : ClassicalMDS) (X : Mat) :
    Except EmbedError (ClassicalMDS × Mat) := do
  let m' ← ClassicalMDS.fit S m X
  match m'.components_, m'.singular_values_ with
  | some U, some sv => .ok (m', matMul U (diagM sv))
  | _, _ => .error .notFitted

/-! ## Helper lemmas -/

theorem importAll_ok (gs : List Mat) (h : gs.all isSquare = true) :
    importAll gs = .ok gs := by
  induction gs with
  | nil => rfl
  | cons g t ih =>
      simp only [List.all_cons, Bool.and_eq_true] at h
      simp [importAll, importGraph, h.1, ih h.2, Bind.bind, Except.bind]

theorem checkInput_glist_ok (m : MultipleASE) (gs : List Mat)
    (h2 : 2 ≤ gs.length) (hsq : gs.all isSquare = true) :
    m.checkInputGraphs (.glist gs) =
      .ok ({ m with n_graphs_ := some gs.length,
                    n_vertices_ := some (gs.headD []).length }, gs) := by
  have hlen : ¬ gs.length ≤ 1 := by omega
  simp [MultipleASE.checkInputGraphs, hlen, importAll_ok gs hsq, Bind.bind, Except.bind]

theorem fit_ok_scores (S : Solvers) (m m' : MultipleASE) (graphs : GraphsIn)
    (h : MultipleASE.fit S m graphs = .ok m') : m'.scores_.isSome = true := by
  unfold MultipleASE.fit at h
  rcases hc : m.checkInputGraphs graphs with e | mg
  · rw [hc] at h
    simp [Bind.bind, Except.bind] at h
  · rw [hc] at h
    simp only [Bind.bind, Except.bind] at h
    by_cases hu : mg.2.all is_almost_symmetric = true
    · simp only [hu, Bool.not_true, if_neg (by simp : ¬ (false = true))] at h
      cases h
      rfl
    · simp only [Bool.not_eq_true] at hu
      simp only [hu, Bool.not_false, if_pos rfl] at h
      cases h
      rfl

/-! ## Claim theorems -/

/-- C2: after `MultipleASE.fit` on a valid collection, the `undirected`
flag is true iff every graph is near-symmetric; when undirected,
`latent_right_` is `None` and every score is `Uhat.T @ G @ Uhat`; when
directed, `latent_right_ = Vhat` and every score is `Uhat.T @ G @ Vhat`,
with `latent_left_ = Uhat` in both cases, where `(Uhat, Vhat)` is the
result of `_reduce_dim` on the checked collection. -/
theorem mase_fit_state (S : Solvers) (m : MultipleASE) (gs : List Mat)
    (h2 : 2 ≤ gs.length) (hsq : gs.all isSquare = true) :
    MultipleASE.fit S m (.glist gs) =
      (let m₂ : MultipleASE :=
        { m with n_graphs_ := some gs.length,
                 n_vertices_ := some (gs.headD []).length,
                 undirected := some (gs.all is_almost_symmetric) }
       let UV := m₂.reduceDim S gs
       .ok { m₂ with
               latent_left_ := some UV.1,
               latent_right_ :=
                 some (if gs.all is_almost_symmetric then none else some UV.2),
               scores_ := some (gs.map fun g =>
                 matMul (matMul (transposeM UV.1) g)
                   (if gs.all is_almost_symmetric then UV.1 else UV.2)) }) := by
  unfold MultipleASE.fit
  rw [checkInput_glist_ok m gs h2 hsq]
  by_cases hu : gs.all is_almost_symmetric = true
  · simp [hu, Bind.bind, Except.bind]
  · simp only [Bool.not_eq_true] at hu
    simp [hu, Bind.bind, Except.bind]

/-- C6: `MultipleASE.transform` on a model whose `fit` has not completed
(no `undirected` attribute stored) fails with the not-fitted error for
every valid graph collection. -/
theorem mase_transform_unfitted (S : Solvers) (m : MultipleASE) (gs : List Mat)
    (hm : m.undirected = none) (h2 : 2 ≤ gs.length) (hsq : gs.all isSquare = true) :
    MultipleASE.transform S m (.glist gs) = .error .notFitted := by
  unfold MultipleASE.transform
  rw [checkInput_glist_ok m gs h2 hsq]
  simp [Bind.bind, Except.bind, hm]

/-- C7: `MultipleASE.transform` on a fitted model fails with the
directedness-mismatch error whenever the new collection's symmetry status
disagrees with the stored `undirected` flag. -/
theorem mase_transform_directedness_mismatch (S : Solvers) (m : MultipleASE)
    (gs : List Mat) (u : Bool)
    (hm : m.undirected = some u) (h2 : 2 ≤ gs.length) (hsq : gs.all isSquare = true)
    (hmis : gs.all is_almost_symmetric ≠ u) :
    MultipleASE.transform S m (.glist gs) = .error .directednessMismatch := by
  unfold MultipleASE.transform
  rw [checkInput_glist_ok m gs h2 hsq]
  have hne : u ≠ gs.all is_almost_symmetric := fun hh => hmis hh.symm
  simp [Bind.bind, Except.bind, hm, hne]

/-- C10: `MultipleASE.fit_transform` (via the inherited `_fit_transform`)
returns exactly the fitted `scores_` tensor of the model produced by
`fit`, for every input collection and directedness. -/
theorem mase_fit_transform_returns_scores (S : Solvers) (m m' : MultipleASE)
    (graphs : GraphsIn) (h : MultipleASE.fit S m graphs = .ok m') :
    ∃ s, m'.scores_ = some s ∧ MultipleASE.fitTransform S m graphs = .ok (m', s) := by
  have hs := fit_ok_scores S m m' graphs h
  rcases hscore : m'.scores_ with _ | s
  · rw [hscore] at hs
    simp at hs
  · refine ⟨s, rfl, ?_⟩
    unfold MultipleASE.fitTransform
    rw [h]
    simp [Bind.bind, Except.bind, hscore]

/-- The shared embedding dimension as the spec words it: when
`n_components` is absent, for each graph run the Dimension Selector with
`n_elbows` elbows on that graph's first-stage spectrum (the first-stage
SVD computed at rank `⌈log2 n⌉`), take the last (largest) elbow, and take
the maximum across graphs (the rounding up to an integer is the identity
on these integer elbow values); when `n_components` is supplied, use it
directly. -/
def specSharedDimension (S : Solvers) (m : MultipleASE) (n : ℕ) (graphs : List Mat) : ℕ :=
  match m.n_components with
  | some d => d
  | none =>
      (graphs.map fun g =>
        (S.selectDim ((S.svd g (some (Nat.clog 2 n)) 2 m.algorithm m.n_iter).2.1)
          m.n_elbows).getLastD 0).foldr max 0

/-- C3: on a checked model with `n_vertices_ = n`, the `best_dimension`
computed inside `_reduce_dim` from the first-stage spectra is exactly the
dimension the spec describes: the maximum over graphs of the last elbow of
the Dimension Selector on the rank-`⌈log2 n⌉` first-stage spectrum when
`n_components` is `None`, and `n_components` itself otherwise. -/
theorem mase_best_dimension_spec (S : Solvers) (m : MultipleASE)
    (graphs : List Mat) (n : ℕ) (hn : m.n_vertices_ = some n) :
    m.bestDim S ((m.firstStage S graphs).map (·.2.1)) = specSharedDimension S m n graphs := by
  cases hc : m.n_components with
  | some d => simp [MultipleASE.bestDim, specSharedDimension, hc]
  | none =>
      simp only [MultipleASE.bestDim, specSharedDimension, MultipleASE.firstStage, hc, hn,
        Option.getD_some, List.map_map]
      rfl

/-- C8: `BaseEmbed._reduce_dim` stores
`latent_left_ = U @ diag(sqrt D)`; on a near-symmetric input
`latent_right_` is `None`, and otherwise it is `V.T @ diag(sqrt D)`,
a matrix with the same number of rows as `latent_left_` whenever the
solver's `V` factor has as many columns as `U` has rows. -/
theorem base_reduce_dim_latents (S : Solvers) (m : BaseEmbedModel) (A : Mat)
    (hV : ((S.svd A m.n_components m.n_elbows m.algorithm m.n_iter).2.2.headD []).length
        = (S.svd A m.n_components m.n_elbows m.algorithm m.n_iter).1.length) :
    (let UDV := S.svd A m.n_components m.n_elbows m.algorithm m.n_iter
     let L := matMul UDV.1 (diagM (UDV.2.1.map S.sqrtQ))
     let R := matMul (transposeM UDV.2.2) (diagM (UDV.2.1.map S.sqrtQ))
     (m.reduceDim S A).latent_left_ = some L
     ∧ (is_almost_symmetric A = true → (m.reduceDim S A).latent_right_ = some none)
     ∧ (is_almost_symmetric A = false →
         (m.reduceDim S A).latent_right_ = some (some R) ∧ R.length = L.length)) := by
  refine ⟨rfl, fun hsym => ?_, fun hasym => ⟨?_, ?_⟩⟩
  · simp [BaseEmbedModel.reduceDim, hsym]
  · simp [BaseEmbedModel.reduceDim, hasym]
  · simp only [matMul, List.length_map, transposeM, List.length_range]
    exact hV

/-- C9: with precomputed dissimilarity and a feasible `n_components`,
`ClassicalMDS` rejects a non-symmetric matrix, and on a symmetric matrix
`D` it forms `B = -1/2 * (J @ D**2 @ J)` with the centering matrix
`J = I - (1/n) * ones`, applies the SVD solver to `B`, and `fit_transform`
returns `U @ diag(sqrt Σ)`. -/
theorem mds_precomputed_fit_transform (S : Solvers) (m : ClassicalMDS) (X : Mat)
    (hd : m.dissimilarity = "precomputed") (hb : ncOK m.n_components X.length = true) :
    (is_symmetric X = false →
      ClassicalMDS.fit S m X =
        .error (.invalidInput
          "X must be a symmetric array if precomputed dissimilarity matrix."))
    ∧ (is_symmetric X = true →
      ClassicalMDS.fitTransform S m X =
        (let J := getCenteringMatrix X.length
         let B := matSmul (-(1 : ℚ) / 2) (matMul (matMul J (matSq X)) J)
         let UDV := S.svd B m.n_components 2
           (if m.n_components = some 1 then "full" else "randomized") 5
         .ok ({ m with n_components_ := some UDV.2.1.length,
                       components_ := some UDV.1,
                       singular_values_ := some (UDV.2.1.map S.sqrtQ),
                       dissimilarity_matrix_ := some X },
              matMul UDV.1 (diagM (UDV.2.1.map S.sqrtQ))))) := by
  constructor
  · intro hns
    unfold ClassicalMDS.fit
    simp [hb, hd, hns, Bind.bind, Except.bind]
  · intro hs
    unfold ClassicalMDS.fitTransform ClassicalMDS.fit
    simp [hb, hd, hs, Bind.bind, Except.bind]

/-- Shape of a dense matrix: `n` rows, each of length `c`. -/
def HasShape (A : Mat) (n c : ℕ) : Prop :=
  A.length = n ∧ ∀ r ∈ A, r.length = c

theorem hasShape_congr {A : Mat} {n c c' : ℕ} (h : HasShape A n c) (hc : c = c') :
    HasShape A n c' := hc ▸ h

theorem mem_zipWith_append : ∀ {A B : Mat} {r : List ℚ},
    r ∈ List.zipWith (fun r s => r ++ s) A B → ∃ a ∈ A, ∃ b ∈ B, r = a ++ b := by
  intro A
  induction A with
  | nil => intro B r hr; simp at hr
  | cons a A ih =>
      intro B r hr
      cases B with
      | nil => simp at hr
      | cons b B =>
          simp only [List.zipWith_cons_cons, List.mem_cons] at hr
          rcases hr with rfl | hr
          · exact ⟨a, by simp, b, by simp, rfl⟩
          · rcases ih hr with ⟨a', ha', b', hb', rfl⟩
            exact ⟨a', by simp [ha'], b', by simp [hb'], rfl⟩

theorem hstack2_shape {A B : Mat} {n c₁ c₂ : ℕ}
    (hA : HasShape A n c₁) (hB : HasShape B n c₂) :
    HasShape (hstack2 A B) n (c₁ + c₂) := by
  obtain ⟨hAl, hAr⟩ := hA
  obtain ⟨hBl, hBr⟩ := hB
  constructor
  · simp [hstack2, List.length_zipWith, hAl, hBl]
  · intro r hr
    rcases mem_zipWith_append hr with ⟨a, ha, b, hb, rfl⟩
    simp [hAr a ha, hBr b hb]

theorem hstack_shape {n c : ℕ} : ∀ (ms : List Mat), ms ≠ [] →
    (∀ M ∈ ms, HasShape M n c) → HasShape (hstack ms) n (ms.length * c)
  | [], h, _ => absurd rfl h
  | [M], _, hs => by
      have := hs M (by simp)
      simpa [hstack] using hasShape_congr this (by simp)
  | M :: M' :: rest, _, hs => by
      have htail : HasShape (hstack (M' :: rest)) n ((M' :: rest).length * c) :=
        hstack_shape (M' :: rest) (by simp) (fun N hN => hs N (by simp [hN]))
      have hhead : HasShape M n c := hs M (by simp)
      have := hstack2_shape hhead htail
      refine hasShape_congr (by simpa [hstack] using this) ?_
      simp [List.length_cons]
      ring

theorem truncCols_shape {A : Mat} {n d : ℕ}
    (hl : A.length = n) (hr : ∀ r ∈ A, d ≤ r.length) :
    HasShape (truncCols d A) n d := by
  constructor
  · simp [truncCols, hl]
  · intro r hr'
    simp only [truncCols, List.mem_map] at hr'
    rcases hr' with ⟨s, hs, rfl⟩
    simp [Nat.min_eq_left (hr s hs)]

theorem transposeM_length (A : Mat) : (transposeM A).length = (A.headD []).length := by
  simp [transposeM]

theorem transposeM_row_length (A : Mat) : ∀ r ∈ transposeM A, r.length = A.length := by
  intro r hr
  simp only [transposeM, List.mem_map] at hr
  rcases hr with ⟨j, _, rfl⟩
  simp

theorem matMul_shape (A B : Mat) : HasShape (matMul A B) A.length (B.headD []).length := by
  constructor
  · simp [matMul]
  · intro r hr
    simp only [matMul, List.mem_map] at hr
    rcases hr with ⟨row, _, rfl⟩
    simp [transposeM]

theorem diagM_headD_length (l : List ℚ) : ((diagM l).headD []).length = l.length := by
  cases l with
  | nil => rfl
  | cons a t => simp [diagM, List.range_succ_eq_map]

theorem stackedLeft_shape (S : Solvers) (m : MultipleASE) {best n : ℕ}
    {Us : List Mat} {Ds : List (List ℚ)}
    (hne : Us ≠ []) (hlen : Ds.length = Us.length)
    (hU : ∀ U ∈ Us, U.length = n ∧ ∀ r ∈ U, best ≤ r.length)
    (hD : ∀ D ∈ Ds, best ≤ D.length) :
    HasShape (m.stackedLeft S best Us Ds) n (Us.length * best) := by
  unfold MultipleASE.stackedLeft
  cases hsc : m.scaled with
  | false =>
      simp only [hsc, Bool.not_false, if_pos rfl]
      refine hasShape_congr (hstack_shape (c := best) _ (by simpa using hne) ?_) (by simp)
      intro M hM
      rcases List.mem_map.mp hM with ⟨U, hU', rfl⟩
      exact truncCols_shape (hU U hU').1 (hU U hU').2
  | true =>
      simp only [hsc, Bool.not_true, if_neg (by simp : ¬ (false = true))]
      refine hasShape_congr (hstack_shape (c := best) _ ?_ ?_) ?_
      · intro hcon
        rw [List.map_eq_nil_iff] at hcon
        have hzl := congrArg List.length hcon
        rw [List.length_zip, hlen, Nat.min_self] at hzl
        simp only [List.length_nil] at hzl
        exact hne (List.length_eq_zero.mp hzl)
      · intro M hM
        rcases List.mem_map.mp hM with ⟨UD, hUD, rfl⟩
        have hmem := List.of_mem_zip hUD
        have h1 := hU UD.1 hmem.1
        have h2 := hD UD.2 hmem.2
        have hblock := matMul_shape (truncCols best UD.1)
          (diagM ((UD.2.take best).map S.sqrtQ))
        refine hasShape_congr ?_ rfl
        have hlength : (truncCols best UD.1).length = n := by
          simp [truncCols, h1.1]
        have hcols : ((diagM ((UD.2.take best).map S.sqrtQ)).headD []).length = best := by
          rw [diagM_headD_length]
          simp [Nat.min_eq_left h2]
        constructor
        · rw [(matMul_shape _ _).1, hlength]
        · intro r hr
          rw [(matMul_shape _ _).2 r hr, hcols]
      · simp [List.length_zip, hlen]

theorem stackedRight_shape (S : Solvers) (m : MultipleASE) {best n : ℕ}
    {Vs : List Mat} {Ds : List (List ℚ)}
    (hne : Vs ≠ []) (hlen : Ds.length = Vs.length)
    (hV : ∀ V ∈ Vs, (V.headD []).length = n ∧ best ≤ V.length)
    (hD : ∀ D ∈ Ds, best ≤ D.length) :
    HasShape (m.stackedRight S best Vs Ds) n (Vs.length * best) := by
  unfold MultipleASE.stackedRight
  cases hsc : m.scaled with
  | false =>
      simp only [hsc, Bool.not_false, if_pos rfl]
      refine hasShape_congr (hstack_shape (c := best) _ (by simpa using hne) ?_) (by simp)
      intro M hM
      rcases List.mem_map.mp hM with ⟨V, hV', rfl⟩
      refine truncCols_shape ?_ ?_
      · rw [transposeM_length]
        exact (hV V hV').1
      · intro r hr
        rw [transposeM_row_length V r hr]
        exact (hV V hV').2
  | true =>
      simp only [hsc, Bool.not_true, if_neg (by simp : ¬ (false = true))]
      refine hasShape_congr (hstack_shape (c := best) _ ?_ ?_) ?_
      · intro hcon
        rw [List.map_eq_nil_iff] at hcon
        have hzl := congrArg List.length hcon
        rw [List.length_zip, hlen, Nat.min_self] at hzl
        simp only [List.length_nil] at hzl
        exact hne (List.length_eq_zero.mp hzl)
      · intro M hM
        rcases List.mem_map.mp hM with ⟨VD, hVD, rfl⟩
        have hmem := List.of_mem_zip hVD
        have h1 := hV VD.1 hmem.1
        have h2 := hD VD.2 hmem.2
        have hlength : (truncCols best (transposeM VD.1)).length = n := by
          simp only [truncCols, List.length_map]
          rw [transposeM_length]
          exact h1.1
        have hcols : ((diagM ((VD.2.take best).map S.sqrtQ)).headD []).length = best := by
          rw [diagM_headD_length]
          simp [Nat.min_eq_left h2]
        constructor
        · rw [(matMul_shape _ _).1, hlength]
        · intro r hr
          rw [(matMul_shape _ _).2 r hr, hcols]
      · simp [List.length_zip, hlen]

/-- C4: inside `_reduce_dim` on `K` graphs of size `n`, the matrix handed
to the second-stage left SVD is the horizontal concatenation, over graphs
in input order, of each graph's first-stage `U` truncated to
`best_dimension` columns — with `scaled = True` each truncated block first
multiplied by `diag(sqrt(D[:best_dimension]))` — an
`n × (K·best_dimension)` matrix; the right-side matrix is built the same
way from the transposed `V` factors.  The shape hypotheses say the
abstract solver returned `U` with `n` rows and at least `best` columns,
`Vh` with at least `best` rows and `n` columns, and at least `best`
singular values. -/
theorem mase_stacked_matrices_spec (S : Solvers) (m : MultipleASE)
    (graphs : List Mat) (n best : ℕ)
    (hbest : best = m.bestDim S ((m.firstStage S graphs).map (·.2.1)))
    (hne : graphs ≠ [])
    (hU : ∀ E ∈ m.firstStage S graphs,
      E.1.length = n ∧ ∀ r ∈ E.1, best ≤ r.length)
    (hV : ∀ E ∈ m.firstStage S graphs,
      (E.2.2.headD []).length = n ∧ best ≤ E.2.2.length)
    (hD : ∀ E ∈ m.firstStage S graphs, best ≤ E.2.1.length) :
    (m.reduceDim S graphs =
      ((S.svd (m.stackedLeft S best ((m.firstStage S graphs).map (·.1))
          ((m.firstStage S graphs).map (·.2.1)))
          m.n_components m.n_elbows m.algorithm m.n_iter).1,
       (S.svd (m.stackedRight S best ((m.firstStage S graphs).map (·.2.2))
          ((m.firstStage S graphs).map (·.2.1)))
          m.n_components m.n_elbows m.algorithm m.n_iter).1))
    ∧ (m.scaled = false →
        m.stackedLeft S best ((m.firstStage S graphs).map (·.1))
            ((m.firstStage S graphs).map (·.2.1))
          = hstack ((m.firstStage S graphs).map fun E => truncCols best E.1)
        ∧ m.stackedRight S best ((m.firstStage S graphs).map (·.2.2))
            ((m.firstStage S graphs).map (·.2.1))
          = hstack ((m.firstStage S graphs).map fun E =>
              truncCols best (transposeM E.2.2)))
    ∧ (m.scaled = true →
        m.stackedLeft S best ((m.firstStage S graphs).map (·.1))
            ((m.firstStage S graphs).map (·.2.1))
          = hstack ((m.firstStage S graphs).map fun E =>
              matMul (truncCols best E.1) (diagM ((E.2.1.take best).map S.sqrtQ)))
        ∧ m.stackedRight S best ((m.firstStage S graphs).map (·.2.2))
            ((m.firstStage S graphs).map (·.2.1))
          = hstack ((m.firstStage S graphs).map fun E =>
              matMul (truncCols best (transposeM E.2.2))
                (diagM ((E.2.1.take best).map S.sqrtQ))))
    ∧ HasShape (m.stackedLeft S best ((m.firstStage S graphs).map (·.1))
        ((m.firstStage S graphs).map (·.2.1))) n (graphs.length * best)
    ∧ HasShape (m.stackedRight S best ((m.firstStage S graphs).map (·.2.2))
        ((m.firstStage S graphs).map (·.2.1))) n (graphs.length * best) := by
  have hEne : m.firstStage S graphs ≠ [] := by
    intro hcon
    have := congrArg List.length hcon
    simp only [MultipleASE.firstStage, List.length_map, List.length_nil] at this
    exact hne (List.length_eq_zero.mp this)
  have hElen : (m.firstStage S graphs).length = graphs.length := by
    simp [MultipleASE.firstStage]
  refine ⟨?_, ?_, ?_, ?_, ?_⟩
  · subst hbest
    rfl
  · intro hsc
    constructor
    · simp only [MultipleASE.stackedLeft, hsc, Bool.not_false, if_pos rfl, List.map_map]
      rfl
    · simp only [MultipleASE.stackedRight, hsc, Bool.not_false, if_pos rfl, List.map_map]
      rfl
  · intro hsc
    constructor
    · simp only [MultipleASE.stackedLeft, hsc, Bool.not_true,
        if_neg (by simp : ¬ (false = true)), List.zip_map', List.map_map]
      rfl
    · simp only [MultipleASE.stackedRight, hsc, Bool.not_true,
        if_neg (by simp : ¬ (false = true)), List.zip_map', List.map_map]
      rfl
  · refine hasShape_congr (stackedLeft_shape S m ?_ ?_ ?_ ?_) ?_
    · simpa [List.map_eq_nil_iff] using hEne
    · simp
    · intro U hU'
      rcases List.mem_map.mp hU' with ⟨E, hE, rfl⟩
      exact hU E hE
    · intro D hD'
      rcases List.mem_map.mp hD' with ⟨E, hE, rfl⟩
      exact hD E hE
    · rw [List.length_map, hElen]
  · refine hasShape_congr (stackedRight_shape S m ?_ ?_ ?_ ?_) ?_
    · simpa [List.map_eq_nil_iff] using hEne
    · simp
    · intro V hV'
      rcases List.mem_map.mp hV' with ⟨E, hE, rfl⟩
      exact hV E hE
    · intro D hD'
      rcases List.mem_map.mp hD' with ⟨E, hE, rfl⟩
      exact hD E hE
    · rw [List.length_map, hElen]

/-! ## Concrete instances used by the bug exhibits and the witnesses -/

/-- A concrete abstract solver whose `U`, `D`, `Vh` all echo the top-left
entry of the input, so that refitting on different graphs produces a
different basis. -/
def S₀ : Solvers where
  svd := fun A _ _ _ _ => ([[entry A 0 0]], [entry A 0 0], [[entry A 0 0]])
  selectDim := fun D _ => [D.length]
  sqrtQ := fun x => x

/-- A concrete solver with constant 2-dimensional output. -/
def S₁ : Solvers where
  svd := fun _ _ _ _ _ => ([[1, 0], [0, 1]], [1, 1], [[1, 0], [0, 1]])
  selectDim := fun _ _ => [1]
  sqrtQ := fun x => x

def m₀cfg : MultipleASE := { n_components := some 1 }

def gsA : List Mat := [[[1]], [[1]]]

def gsB : List Mat := [[[2]], [[2]]]

/-- A ragged collection: two square adjacency matrices of different sizes. -/
def gsRag : List Mat := [[[0, 0], [0, 0]], [[0, 0, 0], [0, 0, 0], [0, 0, 0]]]

/-- The model obtained by fitting `m₀cfg` on `gsA` with solver `S₀`. -/
def M₀val : MultipleASE :=
  match MultipleASE.fit S₀ m₀cfg (.glist gsA) with
  | .ok M => M
  | .error _ => m₀cfg

def mase₃ : MultipleASE := { n_vertices_ := some 2 }

def mase₄ : MultipleASE := { n_components := some 1, n_vertices_ := some 2 }

def graphs₄ : List Mat := [[[1, 0], [0, 1]], [[0, 1], [1, 0]]]

def mase₇ : MultipleASE := { undirected := some false }

def base₈ : BaseEmbedModel := {}

def A₈ : Mat := [[0, 1], [0, 0]]

def mds₉ : ClassicalMDS := { dissimilarity := "precomputed" }

def X₉ : Mat := [[0, 1], [1, 0]]

/-- C1 (code bug): `transform` on a fitted model does not return the
projections onto the fitted basis and does not leave the fitted state
unchanged.  On the fitted model `M₀val` (basis `[[1]]`), transforming the
new collection `gsB` yields a model whose `latent_left_` is the re-fitted
`[[2]]`, and the returned scores are the re-fitted `[[8]]` blocks rather
than the projections `[[2]]` of the new graphs onto the fitted basis —
`transform` re-runs `fit` on its input and discards the freshly computed
projection, exactly the re-fit behaviour the spec calls a likely bug. -/
theorem mase_transform_refits_instead_of_projecting :
    MultipleASE.fit S₀ m₀cfg (.glist gsA) = .ok M₀val
    ∧ M₀val.latent_left_ = some [[1]]
    ∧ (MultipleASE.transform S₀ M₀val (.glist gsB)).toOption.map
        (fun r => r.1.latent_left_) = some (some [[2]])
    ∧ (MultipleASE.transform S₀ M₀val (.glist gsB)).toOption.map
        (fun r => r.2) = some [[[8]], [[8]]]
    ∧ gsB.map (fun g => matMul (matMul (transposeM [[1]]) g) [[1]]) = [[[2]], [[2]]]
    ∧ M₀val.latent_left_ ≠ some [[2]] := by
  refine ⟨?_, ?_, ?_, ?_, ?_, ?_⟩ <;> with_unfolding_all (first | rfl | decide)

/-- C5 (code bug): empty and single-graph inputs are rejected, but a
ragged collection of two square matrices of different sizes is accepted by
`fit`, which runs the whole decomposition pipeline on it instead of
failing before any computation: the list branch of
`_check_input_graphs` never compares shapes across graphs, contradicting
its own docstring. -/
theorem mase_ragged_input_accepted :
    MultipleASE.fit S₀ m₀cfg (.glist []) =
      .error (.invalidInput "Input must have at least 2 graphs.")
    ∧ MultipleASE.fit S₀ m₀cfg (.glist [[[1]]]) =
      .error (.invalidInput "Input must have at least 2 graphs.")
    ∧ (gsRag.getD 0 []).length = 2
    ∧ (gsRag.getD 1 []).length = 3
    ∧ (MultipleASE.fit S₀ m₀cfg (.glist gsRag)).toOption.isSome = true := by
  refine ⟨?_, ?_, ?_, ?_, ?_⟩ <;> with_unfolding_all rfl

/-! ## Witnesses -/

theorem mase_fit_state_witness :
    2 ≤ gsA.length ∧ gsA.all isSquare = true
    ∧ MultipleASE.fit S₀ m₀cfg (.glist gsA) = .ok M₀val :=
  ⟨by decide, by decide,
   (mase_fit_state S₀ m₀cfg gsA (by decide) (by decide)).trans
     (by with_unfolding_all rfl)⟩

theorem mase_best_dimension_spec_witness :
    mase₃.n_vertices_ = some 2
    ∧ mase₃.bestDim S₀ ((mase₃.firstStage S₀ gsA).map (·.2.1))
      = specSharedDimension S₀ mase₃ 2 gsA :=
  ⟨rfl, mase_best_dimension_spec S₀ mase₃ gsA 2 rfl⟩

theorem mase_stacked_matrices_spec_witness :
    ((1 : ℕ) = mase₄.bestDim S₁ ((mase₄.firstStage S₁ graphs₄).map (·.2.1)))
    ∧ graphs₄ ≠ []
    ∧ (∀ E ∈ mase₄.firstStage S₁ graphs₄, E.1.length = 2 ∧ ∀ r ∈ E.1, 1 ≤ r.length)
    ∧ (∀ E ∈ mase₄.firstStage S₁ graphs₄, (E.2.2.headD []).length = 2 ∧ 1 ≤ E.2.2.length)
    ∧ (∀ E ∈ mase₄.firstStage S₁ graphs₄, 1 ≤ E.2.1.length)
    ∧ HasShape (mase₄.stackedLeft S₁ 1 ((mase₄.firstStage S₁ graphs₄).map (·.1))
        ((mase₄.firstStage S₁ graphs₄).map (·.2.1))) 2 (graphs₄.length * 1) :=
  ⟨by with_unfolding_all decide, by decide, by with_unfolding_all decide,
   by with_unfolding_all decide, by with_unfolding_all decide,
   (mase_stacked_matrices_spec S₁ mase₄ graphs₄ 2 1 (by with_unfolding_all decide)
     (by decide) (by with_unfolding_all decide) (by with_unfolding_all decide)
     (by with_unfolding_all decide)).2.2.2.1⟩

theorem mase_transform_unfitted_witness :
    m₀cfg.undirected = none ∧ 2 ≤ gsA.length ∧ gsA.all isSquare = true
    ∧ MultipleASE.transform S₀ m₀cfg (.glist gsA) = .error .notFitted :=
  ⟨rfl, by decide, by decide,
   mase_transform_unfitted S₀ m₀cfg gsA rfl (by decide) (by decide)⟩

theorem mase_transform_directedness_mismatch_witness :
    mase₇.undirected = some false ∧ 2 ≤ gsA.length ∧ gsA.all isSquare = true
    ∧ gsA.all is_almost_symmetric ≠ false
    ∧ MultipleASE.transform S₀ mase₇ (.glist gsA) = .error .directednessMismatch :=
  ⟨rfl, by decide, by decide, by with_unfolding_all decide,
   mase_transform_directedness_mismatch S₀ mase₇ gsA false rfl (by decide)
     (by decide) (by with_unfolding_all decide)⟩

theorem base_reduce_dim_latents_witness :
    (((S₁.svd A₈ base₈.n_components base₈.n_elbows base₈.algorithm base₈.n_iter).2.2.headD
        []).length
      = (S₁.svd A₈ base₈.n_components base₈.n_elbows base₈.algorithm base₈.n_iter).1.length)
    ∧ is_almost_symmetric A₈ = false
    ∧ ((base₈.reduceDim S₁ A₈).latent_right_ =
        some (some (matMul
          (transposeM (S₁.svd A₈ base₈.n_components base₈.n_elbows base₈.algorithm
            base₈.n_iter).2.2)
          (diagM ((S₁.svd A₈ base₈.n_components base₈.n_elbows base₈.algorithm
            base₈.n_iter).2.1.map S₁.sqrtQ))))
       ∧ (matMul
            (transposeM (S₁.svd A₈ base₈.n_components base₈.n_elbows base₈.algorithm
              base₈.n_iter).2.2)
            (diagM ((S₁.svd A₈ base₈.n_components base₈.n_elbows base₈.algorithm
              base₈.n_iter).2.1.map S₁.sqrtQ))).length
         = (matMul (S₁.svd A₈ base₈.n_components base₈.n_elbows base₈.algorithm
              base₈.n_iter).1
            (diagM ((S₁.svd A₈ base₈.n_components base₈.n_elbows base₈.algorithm
              base₈.n_iter).2.1.map S₁.sqrtQ))).length) :=
  ⟨by decide, by with_unfolding_all decide,
   (base_reduce_dim_latents S₁ base₈ A₈ (by decide)).2.2
     (by with_unfolding_all decide)⟩

theorem mds_precomputed_fit_transform_witness :
    mds₉.dissimilarity = "precomputed" ∧ ncOK mds₉.n_components X₉.length = true
    ∧ is_symmetric X₉ = true
    ∧ ClassicalMDS.fitTransform S₁ mds₉ X₉ =
        .ok ({ mds₉ with n_components_ := some 2,
                         components_ := some [[1, 0], [0, 1]],
                         singular_values_ := some [1, 1],
                         dissimilarity_matrix_ := some X₉ }, [[1, 0], [0, 1]]) :=
  ⟨rfl, rfl, by with_unfolding_all decide,
   ((mds_precomputed_fit_transform S₁ mds₉ X₉ rfl rfl).2
       (by with_unfolding_all decide)).trans
     (by with_unfolding_all rfl)⟩

theorem mase_fit_transform_returns_scores_witness :
    MultipleASE.fit S₀ m₀cfg (.glist gsA) = .ok M₀val
    ∧ ∃ s, M₀val.scores_ = some s
        ∧ MultipleASE.fitTransform S₀ m₀cfg (.glist gsA) = .ok (M₀val, s) :=
  ⟨by with_unfolding_all rfl,
   mase_fit_transform_returns_scores S₀ m₀cfg M₀val (.glist gsA)
     (by with_unfolding_all rfl)⟩
